import Mathlib

/-!
Verification of the promise/future state-transfer protocol of
src/include/boost/spinlock/future.hpp (namespace lightweight_futures), as a
sequential state machine over a world of live promise and future objects
addressed by numeric ids.  Locks are no-ops under sequential semantics except
where a claim is about the locking protocol itself, which is modelled
separately (the wait spin-loop model below).
-/

namespace LWFut

/-- Outcome slot tags.  The storage abstraction (value_storage, monad.hpp) is
repository code not under src/; its data model is modelled from the spec, §3:
a tagged variant over empty / value / error / exception / pointer-to-linked
future, exactly one tag active, with transfer (a move leaves the source
empty), clear, swap and set_pointer operations. -/
inductive Storage (V E X : Type) where
  | empty : Storage V E X
  | value (v : V) : Storage V E X
  | error (e : E) : Storage V E X
  | exception (x : X) : Storage V E X
  | pointer (fid : Nat) : Storage V E X
deriving DecidableEq

/-- Payload of the outcome setters set_value / emplace_value / set_error /
set_exception (future.hpp lines 401-413). -/
inductive Outcome (V E X : Type) where
  | value (v : V) : Outcome V E X
  | error (e : E) : Outcome V E X
  | exception (x : X) : Outcome V E X
deriving DecidableEq

variable {V E X : Type}

def Outcome.toStorage : Outcome V E X → Storage V E X
  | .value v => .value v
  | .error e => .error e
  | .exception x => .exception x

/-- basic_promise data members: _storage and _detached (future.hpp lines
234-239). -/
structure PromiseState (V E X : Type) where
  storage : Storage V E X
  detached : Bool
deriving DecidableEq

/-- basic_future data members: the inherited basic_monad storage,
_broken_promise and _promise (future.hpp lines 440, 494, 507). -/
structure FutureState (V E X : Type) where
  storage : Storage V E X
  brokenPromise : Bool
  promise : Option Nat
deriving DecidableEq

/-- The world of live promise and future objects. -/
structure World (V E X : Type) where
  promises : Nat → Option (PromiseState V E X)
  futures : Nat → Option (FutureState V E X)

/-- Pointwise map update. -/
def upd {α : Type} (m : Nat → Option α) (k : Nat) (v : Option α) : Nat → Option α :=
  fun i => if i = k then v else m i

/-- Error conditions surfaced by the operations: the three future_errc values
and the storage abstraction's already_set condition. -/
inductive Err where
  | future_already_retrieved : Err
  | already_set : Err
  | broken_promise : Err
  | no_state : Err
deriving DecidableEq

/-- basic_monad::is_ready — per spec §4.3, "is ready (non-empty)". -/
def isReadyS : Storage V E X → Bool
  | .empty => false
  | _ => true

/-- Whether a promise slot's tag is pointer, i.e. the lock guard entered via
the promise records a linked future (future.hpp line 146). -/
def futureLinked : Storage V E X → Bool
  | .pointer _ => true
  | _ => false

/-- basic_future::valid (future.hpp lines 629-632). -/
def valid (f : FutureState V E X) : Bool :=
  f.promise.isSome || isReadyS f.storage || f.brokenPromise

/-- basic_future::_check_validity (future.hpp lines 531-537): a broken promise
is reported first, then lack of state. -/
def checkValidity (f : FutureState V E X) : Except Err Unit :=
  if f.brokenPromise then .error .broken_promise
  else if valid f then .ok () else .error .no_state

inductive WaitResult where
  | ready : WaitResult
  | errored (e : Err) : WaitResult
  | blocks : WaitResult
deriving DecidableEq

/-- basic_future::wait (future.hpp lines 699-712), sequential observable: the
is_ready fast path returns at once with no lock; otherwise _check_validity may
fail; otherwise the spin loop can never observe a change single-threadedly
(blocks). -/
def waitF (f : FutureState V E X) : WaitResult :=
  if isReadyS f.storage then .ready
  else
    match checkValidity f with
    | .error e => .errored e
    | .ok _ => .blocks

inductive GetResult (V E X : Type) where
  | value (v : V) : GetResult V E X
  | error (e : E) : GetResult V E X
  | exception (x : X) : GetResult V E X
  | errored (e : Err) : GetResult V E X
  | blocks : GetResult V E X
deriving DecidableEq

/-- Modelled from the spec: basic_future::get is inherited from the storage
abstraction (basic_monad, monad.hpp — not under src/); per spec §4.3 the get
family delegates to the storage "after implicitly waiting for readiness",
returning the stored value or rethrowing the stored error / exception.  The
final catch-all arm is unreachable: a ready slot is never empty, and a future
slot never holds a pointer tag. -/
def getF (f : FutureState V E X) : GetResult V E X :=
  match waitF f with
  | .errored e => .errored e
  | .blocks => .blocks
  | .ready =>
    match f.storage with
    | .value v => .value v
    | .error e => .error e
    | .exception x => .exception x
    | _ => .blocks

/-- basic_future::share (future.hpp lines 651-655): _check_validity, then the
policy-determined _share conversion (detail/future_policy.ipp, not under
src/), whose result is out of scope here; the observable is the validity gate
and the future handed over to it. -/
def share (f : FutureState V E X) : Except Err (FutureState V E X) :=
  (checkValidity f).map fun _ => f

/-- basic_promise::get_future (future.hpp lines 355-371) together with the
basic_future(promise_type*) constructor it invokes (lines 510-529).  fid is
the id of the newly constructed future object.  none marks a precondition
violation (the promise object does not exist). -/
def getFuture (w : World V E X) (pid fid : Nat) : Option (Except Err (World V E X)) :=
  match w.promises pid with
  | none => none
  | some p =>
    if futureLinked p.storage then some (.error .future_already_retrieved)
    else if p.detached then some (.error .future_already_retrieved)
    else if isReadyS p.storage then
      some (.ok { w with
        promises := upd w.promises pid (some { storage := .empty, detached := true }),
        futures := upd w.futures fid
          (some { storage := p.storage, brokenPromise := false, promise := none }) })
    else
      some (.ok { w with
        promises := upd w.promises pid (some { storage := .pointer fid, detached := false }),
        futures := upd w.futures fid
          (some { storage := .empty, brokenPromise := false, promise := some pid }) })

/-- The outcome setters set_value / emplace_value / set_error / set_exception,
all generated from the single BOOST_SPINLOCK_FUTURE_IMPL protocol (future.hpp
lines 379-414).  none marks a precondition violation (the promise, or the
future its slot points at, does not exist). -/
def setOutcome (w : World V E X) (pid : Nat) (o : Outcome V E X) :
    Option (Except Err (World V E X)) :=
  match w.promises pid with
  | none => none
  | some p =>
    if p.detached then some (.error .already_set)
    else
      match p.storage with
      | .pointer fid =>
        match w.futures fid with
        | none => none
        | some f =>
          if isReadyS f.storage then some (.error .already_set)
          else
            some (.ok { w with
              futures := upd w.futures fid
                (some { storage := o.toStorage, brokenPromise := f.brokenPromise,
                        promise := none }),
              promises := upd w.promises pid
                (some { storage := .empty, detached := true }) })
      | st =>
        if isReadyS st then some (.error .already_set)
        else
          some (.ok { w with
            promises := upd w.promises pid
              (some { storage := o.toStorage, detached := false }) })

def set_value (w : World V E X) (pid : Nat) (v : V) : Option (Except Err (World V E X)) :=
  setOutcome w pid (.value v)

def emplace_value (w : World V E X) (pid : Nat) (v : V) : Option (Except Err (World V E X)) :=
  setOutcome w pid (.value v)

def set_error (w : World V E X) (pid : Nat) (e : E) : Option (Except Err (World V E X)) :=
  setOutcome w pid (.error e)

def set_exception (w : World V E X) (pid : Nat) (x : X) : Option (Except Err (World V E X)) :=
  setOutcome w pid (.exception x)

/-- basic_promise destructor (future.hpp lines 324-341): when not detached, a
linked future that is not yet ready is marked broken, and a linked future's
back-pointer is cleared unconditionally; the promise object then dies. -/
def promiseDtor (w : World V E X) (pid : Nat) : Option (World V E X) :=
  match w.promises pid with
  | none => none
  | some p =>
    if p.detached then some { w with promises := upd w.promises pid none }
    else
      match p.storage with
      | .pointer fid =>
        match w.futures fid with
        | none => none
        | some f =>
          let f' : FutureState V E X :=
            { storage := f.storage,
              brokenPromise := if isReadyS f.storage then f.brokenPromise else true,
              promise := none }
          some { w with
            futures := upd w.futures fid (some f'),
            promises := upd w.promises pid none }
      | _ => some { w with promises := upd w.promises pid none }

/-- basic_promise move constructor (future.hpp lines 299-312): dst is the id
of the new promise object.  The destination copies the source's _detached
flag; the source keeps its _detached flag and is left with an empty slot
(value_storage move transfer — modelled from the spec, monad.hpp not under
src/); a linked future's back-pointer is repointed at dst. -/
def promiseMove (w : World V E X) (src dst : Nat) : Option (World V E X) :=
  match w.promises src with
  | none => none
  | some p =>
    match p.storage with
    | .pointer fid =>
      match w.futures fid with
      | none => none
      | some f =>
        some { w with
          promises := upd (upd w.promises src
              (some { storage := .empty, detached := p.detached }))
            dst (some { storage := .pointer fid, detached := p.detached }),
          futures := upd w.futures fid (some { f with promise := some dst }) }
    | st =>
      some { w with
        promises := upd (upd w.promises src
            (some { storage := .empty, detached := p.detached }))
          dst (some { storage := st, detached := p.detached }) }

/-- The h._f->_promise = newOwner repointing done by basic_promise::swap for
the future (if any) a swapped slot points at (future.hpp lines 348-351). -/
def repointOwner (fs : Nat → Option (FutureState V E X)) (st : Storage V E X)
    (newOwner : Nat) : Option (Nat → Option (FutureState V E X)) :=
  match st with
  | .pointer fid =>
    match fs fid with
    | none => none
    | some f => some (upd fs fid (some { f with promise := some newOwner }))
  | _ => some fs

/-- basic_promise::swap (future.hpp lines 344-352): swaps the two _storage
slots (the _detached flags are not touched by the source), then repoints each
linked future's back-pointer at its new owner. -/
def promiseSwap (w : World V E X) (a b : Nat) : Option (World V E X) :=
  match w.promises a, w.promises b with
  | some pa, some pb =>
    match repointOwner w.futures pa.storage b with
    | none => none
    | some fs1 =>
      match repointOwner fs1 pb.storage a with
      | none => none
      | some fs2 =>
        let pa' : PromiseState V E X := { storage := pb.storage, detached := pa.detached }
        let pb' : PromiseState V E X := { storage := pa.storage, detached := pb.detached }
        some { promises := upd (upd w.promises a (some pa')) b (some pb'), futures := fs2 }
  | _, _ => none

/-- The raw write h._p->_storage.pointer_ = ... (future.hpp lines 569, 645,
647) sets the pointer payload of a slot whose tag is pointer; on any other tag
the write has no observable effect in this model (the tag is unchanged and the
payload of the active tag is untouched). -/
def setPointerPayload (st : Storage V E X) (fid : Nat) : Storage V E X :=
  match st with
  | .pointer _ => .pointer fid
  | s => s

/-- basic_future move constructor (future.hpp lines 553-571): dst is the id of
the new future object.  The source keeps _broken_promise, loses its storage
(monad move transfer — modelled from the spec, monad.hpp not under src/) and
its _promise link; a linked promise's slot payload is repointed at dst. -/
def futureMove (w : World V E X) (src dst : Nat) : Option (World V E X) :=
  match w.futures src with
  | none => none
  | some f =>
    match f.promise with
    | some pid =>
      match w.promises pid with
      | none => none
      | some p =>
        some { w with
          futures := upd (upd w.futures src
              (some { storage := .empty, brokenPromise := f.brokenPromise,
                      promise := none }))
            dst (some { storage := f.storage, brokenPromise := f.brokenPromise,
                        promise := some pid }),
          promises := upd w.promises pid
            (some { p with storage := setPointerPayload p.storage dst }) }
    | none =>
      some { w with
        futures := upd (upd w.futures src
            (some { storage := .empty, brokenPromise := f.brokenPromise,
                    promise := none }))
          dst (some { storage := f.storage, brokenPromise := f.brokenPromise,
                      promise := none }) }

/-- The h._p->_storage.pointer_ = ... repointing done by basic_future::swap
for the promise (if any) a swapped back-pointer refers to (future.hpp lines
644-647). -/
def repointPayload (ps : Nat → Option (PromiseState V E X)) (opid : Option Nat)
    (fid : Nat) : Option (Nat → Option (PromiseState V E X)) :=
  match opid with
  | none => some ps
  | some pid =>
    match ps pid with
    | none => none
    | some p => some (upd ps pid (some { p with storage := setPointerPayload p.storage fid }))

/-- basic_future::swap (future.hpp lines 635-648): swaps storage,
_broken_promise and _promise wholesale, then repoints each originally linked
promise's slot payload at the future now holding that link. -/
def futureSwap (w : World V E X) (a b : Nat) : Option (World V E X) :=
  match w.futures a, w.futures b with
  | some fa, some fb =>
    match repointPayload w.promises fa.promise b with
    | none => none
    | some ps1 =>
      match repointPayload ps1 fb.promise a with
      | none => none
      | some ps2 =>
        some { promises := ps2, futures := upd (upd w.futures a (some fb)) b (some fa) }
  | _, _ => none

/-- basic_future destructor (future.hpp lines 583-599): when valid, a linked
promise's slot is cleared and it is marked detached; the future object then
dies. -/
def futureDtor (w : World V E X) (fid : Nat) : Option (World V E X) :=
  match w.futures fid with
  | none => none
  | some f =>
    if valid f then
      match f.promise with
      | some pid =>
        match w.promises pid with
        | none => none
        | some _ =>
          some { w with
            promises := upd w.promises pid (some { storage := .empty, detached := true }),
            futures := upd w.futures fid none }
      | none => some { w with futures := upd w.futures fid none }
    else some { w with futures := upd w.futures fid none }

/-! ## Shared-future adapter (shared_basic_future_ptr, future.hpp lines 720-792) -/

/-- shared_basic_future_ptr data: a shared_ptr to one future; none models an
absent (moved-from) handle. -/
structure SharedFuturePtr (V E X : Type) where
  future : Option (FutureState V E X)

inductive CheckResult (α : Type) where
  | aborted : CheckResult α
  | ok (a : α) : CheckResult α
deriving DecidableEq

/-- shared_basic_future_ptr::_check (future.hpp lines 732-740).  Modelled from
the spec for the absent branch: policy::_throw_error lives in
detail/future_policy.ipp (not under src/), and per spec §4.4 the adapter's
validity check "aborts the process (fatal, not a recoverable error) if the
underlying handle is absent". -/
def sharedCheck (s : SharedFuturePtr V E X) : CheckResult (FutureState V E X) :=
  match s.future with
  | none => .aborted
  | some f => .ok f

/-- shared_basic_future_ptr default constructor (future.hpp line 743):
make_shared of a default-constructed future (empty, unlinked, not broken), so
the handle is present. -/
def sharedDefault : SharedFuturePtr V E X :=
  { future := some { storage := .empty, brokenPromise := false, promise := none } }

/-- Forwarded valid(): return _check()->valid() (future.hpp lines 750-754, 766). -/
def sharedValid (s : SharedFuturePtr V E X) : CheckResult Bool :=
  match sharedCheck s with
  | .aborted => .aborted
  | .ok f => .ok (valid f)

/-- Forwarded is_ready() (future.hpp line 756). -/
def sharedIsReady (s : SharedFuturePtr V E X) : CheckResult Bool :=
  match sharedCheck s with
  | .aborted => .aborted
  | .ok f => .ok (isReadyS f.storage)

/-- Forwarded wait() (future.hpp line 790). -/
def sharedWait (s : SharedFuturePtr V E X) : CheckResult WaitResult :=
  match sharedCheck s with
  | .aborted => .aborted
  | .ok f => .ok (waitF f)

/-- Forwarded get() (future.hpp line 769). -/
def sharedGet (s : SharedFuturePtr V E X) : CheckResult (GetResult V E X) :=
  match sharedCheck s with
  | .aborted => .aborted
  | .ok f => .ok (getF f)

/-! ## The lock_guard lifecycle (future.hpp lines 124-218), modelled for one
linked promise/future pair with no other thread contending.

The guard is constructed by the non-const promise and future operations
(get_future, the setters, swap, move, the destructors) and released by
unlock() or the destructor.  basic_future::wait's spin loop is not modelled:
wait() is const (line 699) while both lock_guard constructors take non-const
pointers (lines 130, 163), and the reacquisition h = lock_guard(this) at line
710 calls the copy assignment operator that is implicitly defined as deleted
(lock_guard declares a deleted move constructor at line 129) — so those
statements are ill-formed when instantiated and have no run-time behavior. -/

/-- Spinlock state of the pair, plus a count of unlock operations applied to a
lock that was not held (releasing a free spinlock, which would hand a lock
held by another thread back to everyone). -/
structure LockPairState where
  fLock : Bool
  pLock : Bool
  badUnlocks : Nat
deriving DecidableEq

/-- What a lock_guard records in its _p / _f members (future.hpp lines
126-127), as presence flags for the one promise and one future of the
scenario. -/
structure GuardRec where
  recP : Bool
  recF : Bool
deriving DecidableEq

def lpUnlockF (ls : LockPairState) : LockPairState :=
  { ls with
    fLock := false,
    badUnlocks := ls.badUnlocks + (if ls.fLock then 0 else 1) }

def lpUnlockP (ls : LockPairState) : LockPairState :=
  { ls with
    pLock := false,
    badUnlocks := ls.badUnlocks + (if ls.pLock then 0 else 1) }

/-- lock_guard::unlock (future.hpp lines 199-217): release the promise lock if
recorded, then the future lock if recorded, nulling both records. -/
def guardUnlock (ls : LockPairState) (g : GuardRec) : LockPairState × GuardRec :=
  let ls1 := if g.recP then lpUnlockP ls else ls
  let ls2 := if g.recF then lpUnlockF ls1 else ls1
  (ls2, { recP := false, recF := false })

/-- lock_guard(future_type*) constructor (future.hpp lines 163-194) in the
scenario of a future linked to one promise with no contention: f._lock.lock()
acquires the future lock, the promise try_lock succeeds, and both are
recorded. -/
def guardCtorLinked (ls : LockPairState) : LockPairState × GuardRec :=
  ({ ls with fLock := true, pLock := true }, { recP := true, recF := true })

/-! ## Back-pointer consistency (spec §3) -/

/-- Mutual back-pointer consistency, as in spec §3: if the promise points at a
future, that future's back-pointer points at the same promise, "and vice
versa, whenever both exist".  A promise slot holding a pointer always refers
to a live future (the slot is rewired or cleared before a future dies); a
future's back-pointer may outlive its promise (see the swap flaw recorded
separately), so that direction is conditional on the promise existing, per the
spec's qualifier. -/
def Consistent (w : World V E X) : Prop :=
  (∀ pid p fid, w.promises pid = some p → p.storage = .pointer fid →
    ∃ f, w.futures fid = some f ∧ f.promise = some pid) ∧
  (∀ fid f pid p, w.futures fid = some f → f.promise = some pid →
    w.promises pid = some p → p.storage = .pointer fid)

/-- No live future's back-pointer refers to promise id pid: together with
World.promises pid = none this makes pid a genuinely fresh address for a new
promise object (the model does not reuse addresses). -/
def noFutureRefs (w : World V E X) (pid : Nat) : Prop :=
  ∀ g f, w.futures g = some f → f.promise ≠ some pid

/-- One operation of the promise/future protocol, with freshness side
conditions for the ids of newly constructed objects.  Error results leave the
world untouched (every throw in the source happens before any mutation), so
only successful operations appear. -/
inductive Step : World V E X → World V E X → Prop where
  | stepGetFuture (pid fid : Nat) (w w' : World V E X) : w.futures fid = none →
      getFuture w pid fid = some (.ok w') → Step w w'
  | stepSetOutcome (pid : Nat) (o : Outcome V E X) (w w' : World V E X) :
      setOutcome w pid o = some (.ok w') → Step w w'
  | stepPromiseDtor (pid : Nat) (w w' : World V E X) :
      promiseDtor w pid = some w' → Step w w'
  | stepPromiseMove (src dst : Nat) (w w' : World V E X) : w.promises dst = none →
      noFutureRefs w dst → promiseMove w src dst = some w' → Step w w'
  | stepPromiseSwap (a b : Nat) (w w' : World V E X) : a ≠ b →
      promiseSwap w a b = some w' → Step w w'
  | stepFutureDtor (fid : Nat) (w w' : World V E X) :
      futureDtor w fid = some w' → Step w w'
  | stepFutureMove (src dst : Nat) (w w' : World V E X) : w.futures dst = none →
      futureMove w src dst = some w' → Step w w'
  | stepFutureSwap (a b : Nat) (w w' : World V E X) : a ≠ b →
      futureSwap w a b = some w' → Step w w'

/-! ## Concrete instances used by the evaluation theorems below -/

/-- Extracts the successful world of an operation result. -/
def okWorld : Option (Except Err (World V E X)) → Option (World V E X)
  | some (.ok w) => some w
  | _ => none

def emptyPs : Nat → Option (PromiseState Nat Nat Nat) := fun _ => none

def emptyFs : Nat → Option (FutureState Nat Nat Nat) := fun _ => none

/-- One fresh promise (id 0), no futures. -/
def wP : World Nat Nat Nat := ⟨upd emptyPs 0 (some ⟨.empty, false⟩), emptyFs⟩

/-- Promise 0 linked to future 0: the world getFuture wP 0 0 produces. -/
def wL : World Nat Nat Nat :=
  ⟨upd wP.promises 0 (some ⟨.pointer 0, false⟩),
   upd wP.futures 0 (some ⟨.empty, false, some 0⟩)⟩

/-- Promise 0 holding a buffered value 7: the world set_value wP 0 7 produces. -/
def wB : World Nat Nat Nat := ⟨upd wP.promises 0 (some ⟨.value 7, false⟩), wP.futures⟩

/-- The world setOutcome wL 0 (value 9) produces: outcome delivered into
future 0, both sides unlinked, promise 0 detached. -/
def wLSet : World Nat Nat Nat :=
  ⟨upd wL.promises 0 (some ⟨.empty, true⟩),
   upd wL.futures 0 (some ⟨.value 9, false, none⟩)⟩

/-- Two linked pairs: promise 0 ↔ future 10 and promise 1 ↔ future 11. -/
def wSwap2 : World Nat Nat Nat :=
  ⟨upd (upd emptyPs 0 (some ⟨.pointer 10, false⟩)) 1 (some ⟨.pointer 11, false⟩),
   upd (upd emptyFs 10 (some ⟨.empty, false, some 0⟩)) 11 (some ⟨.empty, false, some 1⟩)⟩

/-- Two fresh promises with ids 0 and 1, no futures. -/
def wTwo : World Nat Nat Nat :=
  ⟨upd (upd emptyPs 0 (some ⟨.empty, false⟩)) 1 (some ⟨.empty, false⟩), emptyFs⟩

/-- The public-API sequence f1 = p0.get_future(); p0.set_value(42);
f2 = p1.get_future(); p0.swap(p1), on two fresh promises 0 and 1, with the
futures allotted ids 10 and 11. -/
def swapTrace : Option (World Nat Nat Nat) := do
  let w1 ← okWorld (getFuture wTwo 0 10)
  let w2 ← okWorld (setOutcome w1 0 (.value 42))
  let w3 ← okWorld (getFuture w2 1 11)
  promiseSwap w3 0 1

/-- swapTrace followed by destroying promise 0. -/
def swapTraceD : Option (World Nat Nat Nat) := do
  let w4 ← swapTrace
  promiseDtor w4 0

/-- A directly held default-constructed future: empty, unlinked, not broken. -/
def fDefault : FutureState Nat Nat Nat := ⟨.empty, false, none⟩

/-- A future whose promise died first: broken_promise set, unlinked, empty. -/
def fBroken : FutureState Nat Nat Nat := ⟨.empty, true, none⟩

/-- A shared-future handle whose underlying shared_ptr is absent (moved-from
shared_basic_future_ptr). -/
def sAbsent : SharedFuturePtr Nat Nat Nat := ⟨none⟩

/-- A shared-future handle over a ready future holding the value 3. -/
def sReady : SharedFuturePtr Nat Nat Nat := ⟨some ⟨.value 3, false, none⟩⟩

/-! ## Lemmas -/

@[simp] theorem upd_same {α : Type} (m : Nat → Option α) (k : Nat) (v : Option α) :
    upd m k v k = v := by
  simp [upd]

theorem upd_ne {α : Type} {m : Nat → Option α} {i k : Nat} {v : Option α} (h : i ≠ k) :
    upd m k v i = m i := by
  simp [upd, h]

theorem isReadyS_false_eq_empty {st : Storage V E X} (h : isReadyS st = false) :
    st = .empty := by
  cases st <;> simp [isReadyS] at h ⊢

theorem futureLinked_false_ne_pointer {st : Storage V E X}
    (h : futureLinked st = false) (g : Nat) : st ≠ .pointer g := by
  cases st <;> simp [futureLinked] at h ⊢

theorem toStorage_ne_pointer (o : Outcome V E X) (g : Nat) :
    o.toStorage ≠ .pointer g := by
  cases o <;> simp [Outcome.toStorage]

theorem isReadyS_toStorage (o : Outcome V E X) : isReadyS o.toStorage = true := by
  cases o <;> simp [Outcome.toStorage, isReadyS]

theorem consistent_getFuture {w w' : World V E X} {pid fid : Nat}
    (hfresh : w.futures fid = none) (h : getFuture w pid fid = some (.ok w'))
    (hc : Consistent w) : Consistent w' := by
  obtain ⟨hc1, hc2⟩ := hc
  unfold getFuture at h
  split at h
  · exact absurd h (by simp)
  next p hp =>
    split at h
    · simp at h
    next hnl =>
      rw [Bool.not_eq_true] at hnl
      split at h
      · simp at h
      split at h <;>
        simp only [Option.some.injEq, Except.ok.injEq] at h <;> subst h
      · constructor
        · intro q pq g hq hg
          dsimp only at hq ⊢
          by_cases hqp : q = pid
          · subst hqp
            rw [upd_same] at hq
            cases hq
            simp at hg
          · rw [upd_ne hqp] at hq
            obtain ⟨f, hf, hfp⟩ := hc1 q pq g hq hg
            have hgf : g ≠ fid := by
              intro hgf
              rw [hgf, hfresh] at hf
              cases hf
            exact ⟨f, by rw [upd_ne hgf]; exact hf, hfp⟩
        · intro g f q pq hg hq hpq
          dsimp only at hg hpq ⊢
          by_cases hgf : g = fid
          · subst hgf
            rw [upd_same] at hg
            cases hg
            simp at hq
          · rw [upd_ne hgf] at hg
            by_cases hqp : q = pid
            · subst hqp
              have := hc2 g f q p hg hq hp
              exact absurd this (futureLinked_false_ne_pointer hnl g)
            · rw [upd_ne hqp] at hpq
              exact hc2 g f q pq hg hq hpq
      next hnr =>
        rw [Bool.not_eq_true] at hnr
        have hempty : p.storage = .empty := isReadyS_false_eq_empty hnr
        constructor
        · intro q pq g hq hg
          dsimp only at hq ⊢
          by_cases hqp : q = pid
          · subst hqp
            rw [upd_same] at hq
            cases hq
            simp only [Storage.pointer.injEq] at hg
            subst hg
            exact ⟨_, upd_same _ _ _, rfl⟩
          · rw [upd_ne hqp] at hq
            obtain ⟨f, hf, hfp⟩ := hc1 q pq g hq hg
            have hgf : g ≠ fid := by
              intro hgf
              rw [hgf, hfresh] at hf
              cases hf
            exact ⟨f, by rw [upd_ne hgf]; exact hf, hfp⟩
        · intro g f q pq hg hq hpq
          dsimp only at hg hpq ⊢
          by_cases hgf : g = fid
          · subst hgf
            rw [upd_same] at hg
            cases hg
            simp only [Option.some.injEq] at hq
            subst hq
            rw [upd_same] at hpq
            cases hpq
            rfl
          · rw [upd_ne hgf] at hg
            by_cases hqp : q = pid
            · subst hqp
              have := hc2 g f q p hg hq hp
              rw [hempty] at this
              cases this
            · rw [upd_ne hqp] at hpq
              exact hc2 g f q pq hg hq hpq

theorem consistent_setOutcome {w w' : World V E X} {pid : Nat} {o : Outcome V E X}
    (h : setOutcome w pid o = some (.ok w')) (hc : Consistent w) : Consistent w' := by
  obtain ⟨hc1, hc2⟩ := hc
  unfold setOutcome at h
  split at h
  · exact absurd h (by simp)
  next p hp =>
    split at h
    · simp at h
    next hnd =>
      split at h
      next fid hst =>
        split at h
        · exact absurd h (by simp)
        next f hf =>
          split at h
          · simp at h
          next hnr =>
            rw [Bool.not_eq_true] at hnr
            simp only [Option.some.injEq, Except.ok.injEq] at h
            subst h
            obtain ⟨f0, hf0, hf0p⟩ := hc1 pid p fid hp hst
            rw [hf] at hf0
            cases hf0
            constructor
            · intro q pq g hq hg
              dsimp only at hq ⊢
              by_cases hqp : q = pid
              · subst hqp
                rw [upd_same] at hq
                cases hq
                simp at hg
              · rw [upd_ne hqp] at hq
                obtain ⟨f1, hf1, hf1p⟩ := hc1 q pq g hq hg
                have hgfid : g ≠ fid := by
                  intro hg2
                  subst hg2
                  rw [hf] at hf1
                  cases hf1
                  rw [hf0p] at hf1p
                  cases hf1p
                  exact hqp rfl
                exact ⟨f1, by rw [upd_ne hgfid]; exact hf1, hf1p⟩
            · intro g f2 q pq hg hq hpq
              dsimp only at hg hpq ⊢
              by_cases hgfid : g = fid
              · subst hgfid
                rw [upd_same] at hg
                cases hg
                simp at hq
              · rw [upd_ne hgfid] at hg
                by_cases hqp : q = pid
                · subst hqp
                  have hps := hc2 g f2 q p hg hq hp
                  rw [hst] at hps
                  cases hps
                  exact absurd rfl hgfid
                · rw [upd_ne hqp] at hpq
                  exact hc2 g f2 q pq hg hq hpq
      next st hnp =>
        split at h
        · simp at h
        next hnr =>
          rw [Bool.not_eq_true] at hnr
          simp only [Option.some.injEq, Except.ok.injEq] at h
          subst h
          constructor
          · intro q pq g hq hg
            dsimp only at hq ⊢
            by_cases hqp : q = pid
            · subst hqp
              rw [upd_same] at hq
              cases hq
              exact absurd hg (toStorage_ne_pointer o g)
            · rw [upd_ne hqp] at hq
              exact hc1 q pq g hq hg
          · intro g f2 q pq hg hq hpq
            dsimp only at hg hpq ⊢
            by_cases hqp : q = pid
            · subst hqp
              have hps := hc2 g f2 q p hg hq hp
              rw [isReadyS_false_eq_empty hnr] at hps
              cases hps
            · rw [upd_ne hqp] at hpq
              exact hc2 g f2 q pq hg hq hpq

theorem consistent_promiseDtor {w w' : World V E X} {pid : Nat}
    (h : promiseDtor w pid = some w') (hc : Consistent w) : Consistent w' := by
  obtain ⟨hc1, hc2⟩ := hc
  unfold promiseDtor at h
  split at h
  · exact absurd h (by simp)
  next p hp =>
    split at h
    · simp only [Option.some.injEq] at h
      subst h
      constructor
      · intro q pq g hq hg
        dsimp only at hq ⊢
        by_cases hqp : q = pid
        · subst hqp
          rw [upd_same] at hq
          cases hq
        · rw [upd_ne hqp] at hq
          exact hc1 q pq g hq hg
      · intro g f q pq hg hq hpq
        dsimp only at hg hpq ⊢
        by_cases hqp : q = pid
        · subst hqp
          rw [upd_same] at hpq
          cases hpq
        · rw [upd_ne hqp] at hpq
          exact hc2 g f q pq hg hq hpq
    next hnd =>
      split at h
      next fid hst =>
        split at h
        · exact absurd h (by simp)
        next f hf =>
          simp only [Option.some.injEq] at h
          subst h
          obtain ⟨f0, hf0, hf0p⟩ := hc1 pid p fid hp hst
          rw [hf] at hf0
          cases hf0
          constructor
          · intro q pq g hq hg
            dsimp only at hq ⊢
            by_cases hqp : q = pid
            · subst hqp
              rw [upd_same] at hq
              cases hq
            · rw [upd_ne hqp] at hq
              obtain ⟨f1, hf1, hf1p⟩ := hc1 q pq g hq hg
              have hgfid : g ≠ fid := by
                intro hg2
                subst hg2
                rw [hf] at hf1
                cases hf1
                rw [hf0p] at hf1p
                cases hf1p
                exact hqp rfl
              exact ⟨f1, by rw [upd_ne hgfid]; exact hf1, hf1p⟩
          · intro g f2 q pq hg hq hpq
            dsimp only at hg hpq ⊢
            by_cases hgfid : g = fid
            · subst hgfid
              rw [upd_same] at hg
              cases hg
              simp at hq
            · rw [upd_ne hgfid] at hg
              by_cases hqp : q = pid
              · subst hqp
                rw [upd_same] at hpq
                cases hpq
              · rw [upd_ne hqp] at hpq
                exact hc2 g f2 q pq hg hq hpq
      next st hnp =>
        simp only [Option.some.injEq] at h
        subst h
        constructor
        · intro q pq g hq hg
          dsimp only at hq ⊢
          by_cases hqp : q = pid
          · subst hqp
            rw [upd_same] at hq
            cases hq
          · rw [upd_ne hqp] at hq
            exact hc1 q pq g hq hg
        · intro g f q pq hg hq hpq
          dsimp only at hg hpq ⊢
          by_cases hqp : q = pid
          · subst hqp
            rw [upd_same] at hpq
            cases hpq
          · rw [upd_ne hqp] at hpq
            exact hc2 g f q pq hg hq hpq

theorem consistent_promiseMove {w w' : World V E X} {src dst : Nat}
    (hfresh : w.promises dst = none) (hrefs : noFutureRefs w dst)
    (h : promiseMove w src dst = some w') (hc : Consistent w) : Consistent w' := by
  obtain ⟨hc1, hc2⟩ := hc
  unfold promiseMove at h
  split at h
  · exact absurd h (by simp)
  next p hp =>
    have hsd : src ≠ dst := by
      intro hx
      rw [hx, hfresh] at hp
      cases hp
    split at h
    next fid hst =>
      split at h
      · exact absurd h (by simp)
      next f hf =>
        simp only [Option.some.injEq] at h
        subst h
        obtain ⟨f0, hf0, hf0p⟩ := hc1 src p fid hp hst
        rw [hf] at hf0
        cases hf0
        constructor
        · intro q pq g hq hg
          dsimp only at hq ⊢
          by_cases hqd : q = dst
          · subst hqd
            rw [upd_same] at hq
            cases hq
            simp only [Storage.pointer.injEq] at hg
            subst hg
            exact ⟨_, upd_same _ _ _, rfl⟩
          · rw [upd_ne hqd] at hq
            by_cases hqs : q = src
            · subst hqs
              rw [upd_same] at hq
              cases hq
              cases hg
            · rw [upd_ne hqs] at hq
              obtain ⟨f1, hf1, hf1p⟩ := hc1 q pq g hq hg
              have hgfid : g ≠ fid := by
                intro hg2
                subst hg2
                rw [hf] at hf1
                cases hf1
                rw [hf0p] at hf1p
                cases hf1p
                exact hqs rfl
              exact ⟨f1, by rw [upd_ne hgfid]; exact hf1, hf1p⟩
        · intro g f2 q pq hg hq hpq
          dsimp only at hg hpq ⊢
          by_cases hgfid : g = fid
          · subst hgfid
            rw [upd_same] at hg
            cases hg
            simp only [Option.some.injEq] at hq
            subst hq
            rw [upd_same] at hpq
            cases hpq
            rfl
          · rw [upd_ne hgfid] at hg
            by_cases hqd : q = dst
            · subst hqd
              exact absurd hq (hrefs g f2 hg)
            · by_cases hqs : q = src
              · subst hqs
                have hps := hc2 g f2 q p hg hq hp
                rw [hst] at hps
                cases hps
                exact absurd rfl hgfid
              · rw [upd_ne hqd, upd_ne hqs] at hpq
                exact hc2 g f2 q pq hg hq hpq
    next st hnp =>
      simp only [Option.some.injEq] at h
      subst h
      constructor
      · intro q pq g hq hg
        dsimp only at hq ⊢
        by_cases hqd : q = dst
        · subst hqd
          rw [upd_same] at hq
          cases hq
          exact absurd hg (by exact hnp g)
        · rw [upd_ne hqd] at hq
          by_cases hqs : q = src
          · subst hqs
            rw [upd_same] at hq
            cases hq
            cases hg
          · rw [upd_ne hqs] at hq
            exact hc1 q pq g hq hg
      · intro g f2 q pq hg hq hpq
        dsimp only at hg hpq ⊢
        by_cases hqd : q = dst
        · subst hqd
          exact absurd hq (hrefs g f2 hg)
        · by_cases hqs : q = src
          · subst hqs
            have hps := hc2 g f2 q p hg hq hp
            exact absurd hps (by exact hnp g)
          · rw [upd_ne hqd, upd_ne hqs] at hpq
            exact hc2 g f2 q pq hg hq hpq

theorem setPointerPayload_pointer (x d : Nat) :
    setPointerPayload (Storage.pointer x : Storage V E X) d = .pointer d := rfl

theorem consistent_futureDtor {w w' : World V E X} {fid : Nat}
    (h : futureDtor w fid = some w') (hc : Consistent w) : Consistent w' := by
  obtain ⟨hc1, hc2⟩ := hc
  unfold futureDtor at h
  split at h
  · exact absurd h (by simp)
  next f hf =>
    split at h
    · split at h
      next pid hfp =>
        split at h
        · exact absurd h (by simp)
        next p hp =>
          simp only [Option.some.injEq] at h
          subst h
          have hps : p.storage = .pointer fid := hc2 fid f pid p hf hfp hp
          constructor
          · intro q pq g hq hg
            dsimp only at hq ⊢
            by_cases hqp : q = pid
            · subst hqp
              rw [upd_same] at hq
              cases hq
              cases hg
            · rw [upd_ne hqp] at hq
              obtain ⟨f1, hf1, hf1p⟩ := hc1 q pq g hq hg
              have hgf : g ≠ fid := by
                intro hx
                subst hx
                rw [hf] at hf1
                cases hf1
                rw [hfp] at hf1p
                cases hf1p
                exact hqp rfl
              exact ⟨f1, by rw [upd_ne hgf]; exact hf1, hf1p⟩
          · intro g f2 q pq hg hq hpq
            dsimp only at hg hpq ⊢
            by_cases hgf : g = fid
            · subst hgf
              rw [upd_same] at hg
              cases hg
            · rw [upd_ne hgf] at hg
              by_cases hqp : q = pid
              · subst hqp
                have hx := hc2 g f2 q p hg hq hp
                rw [hps] at hx
                cases hx
                exact absurd rfl hgf
              · rw [upd_ne hqp] at hpq
                exact hc2 g f2 q pq hg hq hpq
      next hfpn =>
        simp only [Option.some.injEq] at h
        subst h
        constructor
        · intro q pq g hq hg
          dsimp only at hq ⊢
          obtain ⟨f1, hf1, hf1p⟩ := hc1 q pq g hq hg
          have hgf : g ≠ fid := by
            intro hx
            subst hx
            rw [hf] at hf1
            cases hf1
            rw [hfpn] at hf1p
            cases hf1p
          exact ⟨f1, by rw [upd_ne hgf]; exact hf1, hf1p⟩
        · intro g f2 q pq hg hq hpq
          dsimp only at hg hpq ⊢
          by_cases hgf : g = fid
          · subst hgf
            rw [upd_same] at hg
            cases hg
          · rw [upd_ne hgf] at hg
            exact hc2 g f2 q pq hg hq hpq
    next hnv =>
      simp only [Option.some.injEq] at h
      subst h
      have hfpn : f.promise = none := by
        cases hfp : f.promise with
        | none => rfl
        | some q =>
          rw [Bool.not_eq_true] at hnv
          rw [valid, hfp] at hnv
          simp at hnv
      constructor
      · intro q pq g hq hg
        dsimp only at hq ⊢
        obtain ⟨f1, hf1, hf1p⟩ := hc1 q pq g hq hg
        have hgf : g ≠ fid := by
          intro hx
          subst hx
          rw [hf] at hf1
          cases hf1
          rw [hfpn] at hf1p
          cases hf1p
        exact ⟨f1, by rw [upd_ne hgf]; exact hf1, hf1p⟩
      · intro g f2 q pq hg hq hpq
        dsimp only at hg hpq ⊢
        by_cases hgf : g = fid
        · subst hgf
          rw [upd_same] at hg
          cases hg
        · rw [upd_ne hgf] at hg
          exact hc2 g f2 q pq hg hq hpq

theorem consistent_futureMove {w w' : World V E X} {src dst : Nat}
    (hfresh : w.futures dst = none) (h : futureMove w src dst = some w')
    (hc : Consistent w) : Consistent w' := by
  obtain ⟨hc1, hc2⟩ := hc
  unfold futureMove at h
  split at h
  · exact absurd h (by simp)
  next f hf =>
    have hsd : src ≠ dst := by
      intro hx
      rw [hx, hfresh] at hf
      cases hf
    split at h
    next pid hfp =>
      split at h
      · exact absurd h (by simp)
      next p hp =>
        simp only [Option.some.injEq] at h
        subst h
        have hps : p.storage = .pointer src := hc2 src f pid p hf hfp hp
        constructor
        · intro q pq g hq hg
          dsimp only at hq ⊢
          by_cases hqp : q = pid
          · subst hqp
            rw [upd_same] at hq
            cases hq
            rw [hps, setPointerPayload_pointer] at hg
            dsimp only at hg
            cases hg
            exact ⟨_, upd_same _ _ _, rfl⟩
          · rw [upd_ne hqp] at hq
            obtain ⟨f1, hf1, hf1p⟩ := hc1 q pq g hq hg
            have hgs : g ≠ src := by
              intro hx
              subst hx
              rw [hf] at hf1
              cases hf1
              rw [hfp] at hf1p
              cases hf1p
              exact hqp rfl
            have hgd : g ≠ dst := by
              intro hx
              rw [hx, hfresh] at hf1
              cases hf1
            exact ⟨f1, by rw [upd_ne hgd, upd_ne hgs]; exact hf1, hf1p⟩
        · intro g f2 q pq hg hq hpq
          dsimp only at hg hpq ⊢
          by_cases hgd : g = dst
          · subst hgd
            rw [upd_same] at hg
            cases hg
            simp only [Option.some.injEq] at hq
            subst hq
            rw [upd_same] at hpq
            cases hpq
            dsimp only
            rw [hps, setPointerPayload_pointer]
          · rw [upd_ne hgd] at hg
            by_cases hgs : g = src
            · subst hgs
              rw [upd_same] at hg
              cases hg
              simp at hq
            · rw [upd_ne hgs] at hg
              by_cases hqp : q = pid
              · subst hqp
                have hx := hc2 g f2 q p hg hq hp
                rw [hps] at hx
                cases hx
                exact absurd rfl hgs
              · rw [upd_ne hqp] at hpq
                exact hc2 g f2 q pq hg hq hpq
    next hfpn =>
      simp only [Option.some.injEq] at h
      subst h
      constructor
      · intro q pq g hq hg
        dsimp only at hq ⊢
        obtain ⟨f1, hf1, hf1p⟩ := hc1 q pq g hq hg
        have hgs : g ≠ src := by
          intro hx
          subst hx
          rw [hf] at hf1
          cases hf1
          rw [hfpn] at hf1p
          cases hf1p
        have hgd : g ≠ dst := by
          intro hx
          rw [hx, hfresh] at hf1
          cases hf1
        exact ⟨f1, by rw [upd_ne hgd, upd_ne hgs]; exact hf1, hf1p⟩
      · intro g f2 q pq hg hq hpq
        dsimp only at hg hpq ⊢
        by_cases hgd : g = dst
        · subst hgd
          rw [upd_same] at hg
          cases hg
          simp at hq
        · rw [upd_ne hgd] at hg
          by_cases hgs : g = src
          · subst hgs
            rw [upd_same] at hg
            cases hg
            simp at hq
          · rw [upd_ne hgs] at hg
            exact hc2 g f2 q pq hg hq hpq

theorem repointOwner_eq {fs : Nat → Option (FutureState V E X)} {st : Storage V E X}
    {o : Nat} {fs' : Nat → Option (FutureState V E X)}
    (h : repointOwner fs st o = some fs') :
    (futureLinked st = false ∧ fs' = fs) ∨
    (∃ fid f, st = .pointer fid ∧ fs fid = some f ∧
      fs' = upd fs fid (some { f with promise := some o })) := by
  unfold repointOwner at h
  split at h
  next fid =>
    split at h
    · exact absurd h (by simp)
    next f hf =>
      simp only [Option.some.injEq] at h
      exact .inr ⟨fid, f, rfl, hf, h.symm⟩
  next hnp =>
    simp only [Option.some.injEq] at h
    refine .inl ⟨?_, h.symm⟩
    cases st with
    | empty => rfl
    | value v => rfl
    | error e => rfl
    | exception x => rfl
    | pointer fid => exact absurd rfl (hnp fid)

theorem repointPayload_eq {ps : Nat → Option (PromiseState V E X)} {opid : Option Nat}
    {fid : Nat} {ps' : Nat → Option (PromiseState V E X)}
    (h : repointPayload ps opid fid = some ps') :
    (opid = none ∧ ps' = ps) ∨
    (∃ pid p, opid = some pid ∧ ps pid = some p ∧
      ps' = upd ps pid (some { p with storage := setPointerPayload p.storage fid })) := by
  unfold repointPayload at h
  split at h
  · simp only [Option.some.injEq] at h
    exact .inl ⟨rfl, h.symm⟩
  next pid =>
    split at h
    · exact absurd h (by simp)
    next p hp =>
      simp only [Option.some.injEq] at h
      exact .inr ⟨pid, p, rfl, hp, h.symm⟩

theorem consistent_promiseSwap {w w' : World V E X} {a b : Nat} (hab : a ≠ b)
    (h : promiseSwap w a b = some w') (hc : Consistent w) : Consistent w' := by
  obtain ⟨hc1, hc2⟩ := hc
  unfold promiseSwap at h
  split at h
  case _ pa pb hpa hpb =>
    split at h
    · exact absurd h (by simp)
    next fs1 hfs1 =>
      split at h
      · exact absurd h (by simp)
      next fs2 hfs2 =>
        simp only [Option.some.injEq] at h
        subst h
        rcases repointOwner_eq hfs1 with ⟨hnl1, rfl⟩ | ⟨f1, ff1, hst1, hff1, rfl⟩
        · rcases repointOwner_eq hfs2 with ⟨hnl2, rfl⟩ | ⟨f2, ff2, hst2, hff2, rfl⟩
          · -- neither promise linked: only the slots are exchanged
            constructor
            · intro q pq g hq hg
              dsimp only at hq ⊢
              by_cases hqb : q = b
              · subst hqb
                rw [upd_same] at hq
                cases hq
                exact absurd hg (futureLinked_false_ne_pointer hnl1 g)
              · rw [upd_ne hqb] at hq
                by_cases hqa : q = a
                · subst hqa
                  rw [upd_same] at hq
                  cases hq
                  exact absurd hg (futureLinked_false_ne_pointer hnl2 g)
                · rw [upd_ne hqa] at hq
                  exact hc1 q pq g hq hg
            · intro g f q pq hg hq hpq
              dsimp only at hg hpq ⊢
              by_cases hqb : q = b
              · subst hqb
                have hx := hc2 g f q pb hg hq hpb
                exact absurd hx (futureLinked_false_ne_pointer hnl2 g)
              · rw [upd_ne hqb] at hpq
                by_cases hqa : q = a
                · subst hqa
                  have hx := hc2 g f q pa hg hq hpa
                  exact absurd hx (futureLinked_false_ne_pointer hnl1 g)
                · rw [upd_ne hqa] at hpq
                  exact hc2 g f q pq hg hq hpq
          · -- only pb linked, to future f2
            obtain ⟨f0, hf0, hf0p⟩ := hc1 b pb f2 hpb hst2
            rw [hff2] at hf0
            cases hf0
            constructor
            · intro q pq g hq hg
              dsimp only at hq ⊢
              by_cases hqb : q = b
              · subst hqb
                rw [upd_same] at hq
                cases hq
                exact absurd hg (futureLinked_false_ne_pointer hnl1 g)
              · rw [upd_ne hqb] at hq
                by_cases hqa : q = a
                · subst hqa
                  rw [upd_same] at hq
                  cases hq
                  rw [hst2] at hg
                  cases hg
                  exact ⟨_, upd_same _ _ _, rfl⟩
                · rw [upd_ne hqa] at hq
                  obtain ⟨fg, hfg, hfgp⟩ := hc1 q pq g hq hg
                  have hgf2 : g ≠ f2 := by
                    intro hx
                    subst hx
                    rw [hff2] at hfg
                    cases hfg
                    rw [hf0p] at hfgp
                    cases hfgp
                    exact hqb rfl
                  exact ⟨fg, by rw [upd_ne hgf2]; exact hfg, hfgp⟩
            · intro g f q pq hg hq hpq
              dsimp only at hg hpq ⊢
              by_cases hgf2 : g = f2
              · subst hgf2
                rw [upd_same] at hg
                cases hg
                simp only [Option.some.injEq] at hq
                subst hq
                rw [upd_ne hab, upd_same] at hpq
                cases hpq
                exact hst2
              · rw [upd_ne hgf2] at hg
                by_cases hqb : q = b
                · subst hqb
                  have hx := hc2 g f q pb hg hq hpb
                  rw [hst2] at hx
                  cases hx
                  exact absurd rfl hgf2
                · rw [upd_ne hqb] at hpq
                  by_cases hqa : q = a
                  · subst hqa
                    have hx := hc2 g f q pa hg hq hpa
                    exact absurd hx (futureLinked_false_ne_pointer hnl1 g)
                  · rw [upd_ne hqa] at hpq
                    exact hc2 g f q pq hg hq hpq
        · -- pa linked, to future f1
          obtain ⟨f0, hf0, hf0p⟩ := hc1 a pa f1 hpa hst1
          rw [hff1] at hf0
          cases hf0
          rcases repointOwner_eq hfs2 with ⟨hnl2, rfl⟩ | ⟨f2, ff2, hst2, hff2, rfl⟩
          · -- only pa linked
            constructor
            · intro q pq g hq hg
              dsimp only at hq ⊢
              by_cases hqb : q = b
              · subst hqb
                rw [upd_same] at hq
                cases hq
                rw [hst1] at hg
                cases hg
                exact ⟨_, upd_same _ _ _, rfl⟩
              · rw [upd_ne hqb] at hq
                by_cases hqa : q = a
                · subst hqa
                  rw [upd_same] at hq
                  cases hq
                  exact absurd hg (futureLinked_false_ne_pointer hnl2 g)
                · rw [upd_ne hqa] at hq
                  obtain ⟨fg, hfg, hfgp⟩ := hc1 q pq g hq hg
                  have hgf1 : g ≠ f1 := by
                    intro hx
                    subst hx
                    rw [hff1] at hfg
                    cases hfg
                    rw [hf0p] at hfgp
                    cases hfgp
                    exact hqa rfl
                  exact ⟨fg, by rw [upd_ne hgf1]; exact hfg, hfgp⟩
            · intro g f q pq hg hq hpq
              dsimp only at hg hpq ⊢
              by_cases hgf1 : g = f1
              · subst hgf1
                rw [upd_same] at hg
                cases hg
                simp only [Option.some.injEq] at hq
                subst hq
                rw [upd_same] at hpq
                cases hpq
                exact hst1
              · rw [upd_ne hgf1] at hg
                by_cases hqb : q = b
                · subst hqb
                  have hx := hc2 g f q pb hg hq hpb
                  exact absurd hx (futureLinked_false_ne_pointer hnl2 g)
                · rw [upd_ne hqb] at hpq
                  by_cases hqa : q = a
                  · subst hqa
                    have hx := hc2 g f q pa hg hq hpa
                    rw [hst1] at hx
                    cases hx
                    exact absurd rfl hgf1
                  · rw [upd_ne hqa] at hpq
                    exact hc2 g f q pq hg hq hpq
          · -- both linked: pa to f1, pb to f2
            have hf1f2 : f1 ≠ f2 := by
              intro hx
              subst hx
              obtain ⟨f0', hf0', hf0'p⟩ := hc1 b pb f1 hpb hst2
              rw [hff1] at hf0'
              cases hf0'
              rw [hf0p] at hf0'p
              cases hf0'p
              exact hab rfl
            rw [upd_ne (Ne.symm hf1f2)] at hff2
            obtain ⟨f0', hf0', hf0'p⟩ := hc1 b pb f2 hpb hst2
            rw [hff2] at hf0'
            cases hf0'
            constructor
            · intro q pq g hq hg
              dsimp only at hq ⊢
              by_cases hqb : q = b
              · subst hqb
                rw [upd_same] at hq
                cases hq
                rw [hst1] at hg
                cases hg
                refine ⟨{ storage := ff1.storage, brokenPromise := ff1.brokenPromise,
                          promise := some q }, ?_, rfl⟩
                rw [upd_ne hf1f2, upd_same]
              · rw [upd_ne hqb] at hq
                by_cases hqa : q = a
                · subst hqa
                  rw [upd_same] at hq
                  cases hq
                  rw [hst2] at hg
                  cases hg
                  exact ⟨_, upd_same _ _ _, rfl⟩
                · rw [upd_ne hqa] at hq
                  obtain ⟨fg, hfg, hfgp⟩ := hc1 q pq g hq hg
                  have hgf1 : g ≠ f1 := by
                    intro hx
                    subst hx
                    rw [hff1] at hfg
                    cases hfg
                    rw [hf0p] at hfgp
                    cases hfgp
                    exact hqa rfl
                  have hgf2 : g ≠ f2 := by
                    intro hx
                    subst hx
                    rw [hff2] at hfg
                    cases hfg
                    rw [hf0'p] at hfgp
                    cases hfgp
                    exact hqb rfl
                  exact ⟨fg, by rw [upd_ne hgf2, upd_ne hgf1]; exact hfg, hfgp⟩
            · intro g f q pq hg hq hpq
              dsimp only at hg hpq ⊢
              by_cases hgf2 : g = f2
              · subst hgf2
                rw [upd_same] at hg
                cases hg
                simp only [Option.some.injEq] at hq
                subst hq
                rw [upd_ne hab, upd_same] at hpq
                cases hpq
                exact hst2
              · rw [upd_ne hgf2] at hg
                by_cases hgf1 : g = f1
                · subst hgf1
                  rw [upd_same] at hg
                  cases hg
                  simp only [Option.some.injEq] at hq
                  subst hq
                  rw [upd_same] at hpq
                  cases hpq
                  exact hst1
                · rw [upd_ne hgf1] at hg
                  by_cases hqb : q = b
                  · subst hqb
                    have hx := hc2 g f q pb hg hq hpb
                    rw [hst2] at hx
                    cases hx
                    exact absurd rfl hgf2
                  · rw [upd_ne hqb] at hpq
                    by_cases hqa : q = a
                    · subst hqa
                      have hx := hc2 g f q pa hg hq hpa
                      rw [hst1] at hx
                      cases hx
                      exact absurd rfl hgf1
                    · rw [upd_ne hqa] at hpq
                      exact hc2 g f q pq hg hq hpq
  · exact absurd h (by simp)

theorem consistent_futureSwap {w w' : World V E X} {a b : Nat} (hab : a ≠ b)
    (h : futureSwap w a b = some w') (hc : Consistent w) : Consistent w' := by
  obtain ⟨hc1, hc2⟩ := hc
  unfold futureSwap at h
  split at h
  case _ fa fb hfa hfb =>
    split at h
    · exact absurd h (by simp)
    next ps1 hps1 =>
      split at h
      · exact absurd h (by simp)
      next ps2 hps2 =>
        simp only [Option.some.injEq] at h
        subst h
        rcases repointPayload_eq hps1 with ⟨hfap, rfl⟩ | ⟨p1, pp1, hfap, hp1, rfl⟩
        · rcases repointPayload_eq hps2 with ⟨hfbp, rfl⟩ | ⟨p2, pp2, hfbp, hp2, rfl⟩
          · -- neither future linked: only storage/broken/promise fields exchanged
            constructor
            · intro q pq g hq hg
              dsimp only at hq ⊢
              obtain ⟨fg, hfg, hfgp⟩ := hc1 q pq g hq hg
              have hga : g ≠ a := by
                intro hx
                subst hx
                rw [hfa] at hfg
                cases hfg
                rw [hfap] at hfgp
                cases hfgp
              have hgb : g ≠ b := by
                intro hx
                subst hx
                rw [hfb] at hfg
                cases hfg
                rw [hfbp] at hfgp
                cases hfgp
              exact ⟨fg, by rw [upd_ne hgb, upd_ne hga]; exact hfg, hfgp⟩
            · intro g f q pq hg hq hpq
              dsimp only at hg hpq ⊢
              by_cases hgb : g = b
              · subst hgb
                rw [upd_same] at hg
                cases hg
                rw [hfap] at hq
                cases hq
              · rw [upd_ne hgb] at hg
                by_cases hga : g = a
                · subst hga
                  rw [upd_same] at hg
                  cases hg
                  rw [hfbp] at hq
                  cases hq
                · rw [upd_ne hga] at hg
                  exact hc2 g f q pq hg hq hpq
          · -- only b's future linked, to promise p2
            have hps' : pp2.storage = .pointer b := hc2 b fb p2 pp2 hfb hfbp hp2
            constructor
            · intro q pq g hq hg
              dsimp only at hq ⊢
              by_cases hqp2 : q = p2
              · subst hqp2
                rw [upd_same] at hq
                cases hq
                dsimp only at hg
                rw [hps', setPointerPayload_pointer] at hg
                cases hg
                refine ⟨fb, ?_, hfbp⟩
                rw [upd_ne hab, upd_same]
              · rw [upd_ne hqp2] at hq
                obtain ⟨fg, hfg, hfgp⟩ := hc1 q pq g hq hg
                have hga : g ≠ a := by
                  intro hx
                  subst hx
                  rw [hfa] at hfg
                  cases hfg
                  rw [hfap] at hfgp
                  cases hfgp
                have hgb : g ≠ b := by
                  intro hx
                  subst hx
                  rw [hfb] at hfg
                  cases hfg
                  rw [hfbp] at hfgp
                  cases hfgp
                  exact hqp2 rfl
                exact ⟨fg, by rw [upd_ne hgb, upd_ne hga]; exact hfg, hfgp⟩
            · intro g f q pq hg hq hpq
              dsimp only at hg hpq ⊢
              by_cases hgb : g = b
              · subst hgb
                rw [upd_same] at hg
                cases hg
                rw [hfap] at hq
                cases hq
              · rw [upd_ne hgb] at hg
                by_cases hga : g = a
                · subst hga
                  rw [upd_same] at hg
                  cases hg
                  rw [hfbp] at hq
                  cases hq
                  rw [upd_same] at hpq
                  cases hpq
                  dsimp only
                  rw [hps', setPointerPayload_pointer]
                · rw [upd_ne hga] at hg
                  by_cases hqp2 : q = p2
                  · subst hqp2
                    have hx := hc2 g f q pp2 hg hq hp2
                    rw [hps'] at hx
                    cases hx
                    exact absurd rfl hgb
                  · rw [upd_ne hqp2] at hpq
                    exact hc2 g f q pq hg hq hpq
        · -- a's future linked, to promise p1
          have hps : pp1.storage = .pointer a := hc2 a fa p1 pp1 hfa hfap hp1
          rcases repointPayload_eq hps2 with ⟨hfbp, rfl⟩ | ⟨p2, pp2, hfbp, hp2, rfl⟩
          · -- only a's future linked
            constructor
            · intro q pq g hq hg
              dsimp only at hq ⊢
              by_cases hqp1 : q = p1
              · subst hqp1
                rw [upd_same] at hq
                cases hq
                dsimp only at hg
                rw [hps, setPointerPayload_pointer] at hg
                cases hg
                exact ⟨fa, upd_same _ _ _, hfap⟩
              · rw [upd_ne hqp1] at hq
                obtain ⟨fg, hfg, hfgp⟩ := hc1 q pq g hq hg
                have hga : g ≠ a := by
                  intro hx
                  subst hx
                  rw [hfa] at hfg
                  cases hfg
                  rw [hfap] at hfgp
                  cases hfgp
                  exact hqp1 rfl
                have hgb : g ≠ b := by
                  intro hx
                  subst hx
                  rw [hfb] at hfg
                  cases hfg
                  rw [hfbp] at hfgp
                  cases hfgp
                exact ⟨fg, by rw [upd_ne hgb, upd_ne hga]; exact hfg, hfgp⟩
            · intro g f q pq hg hq hpq
              dsimp only at hg hpq ⊢
              by_cases hgb : g = b
              · subst hgb
                rw [upd_same] at hg
                cases hg
                rw [hfap] at hq
                cases hq
                rw [upd_same] at hpq
                cases hpq
                dsimp only
                rw [hps, setPointerPayload_pointer]
              · rw [upd_ne hgb] at hg
                by_cases hga : g = a
                · subst hga
                  rw [upd_same] at hg
                  cases hg
                  rw [hfbp] at hq
                  cases hq
                · rw [upd_ne hga] at hg
                  by_cases hqp1 : q = p1
                  · subst hqp1
                    have hx := hc2 g f q pp1 hg hq hp1
                    rw [hps] at hx
                    cases hx
                    exact absurd rfl hga
                  · rw [upd_ne hqp1] at hpq
                    exact hc2 g f q pq hg hq hpq
          · -- both futures linked: a's to p1, b's to p2
            have hp1p2 : p2 ≠ p1 := by
              intro hx
              subst hx
              have hx2 := hc2 b fb p2 pp1 hfb hfbp hp1
              rw [hps] at hx2
              cases hx2
              exact hab rfl
            rw [upd_ne hp1p2] at hp2
            have hps' : pp2.storage = .pointer b := hc2 b fb p2 pp2 hfb hfbp hp2
            constructor
            · intro q pq g hq hg
              dsimp only at hq ⊢
              by_cases hqp2 : q = p2
              · subst hqp2
                rw [upd_same] at hq
                cases hq
                dsimp only at hg
                rw [hps', setPointerPayload_pointer] at hg
                cases hg
                refine ⟨fb, ?_, hfbp⟩
                rw [upd_ne hab, upd_same]
              · rw [upd_ne hqp2] at hq
                by_cases hqp1 : q = p1
                · subst hqp1
                  rw [upd_same] at hq
                  cases hq
                  dsimp only at hg
                  rw [hps, setPointerPayload_pointer] at hg
                  cases hg
                  exact ⟨fa, upd_same _ _ _, hfap⟩
                · rw [upd_ne hqp1] at hq
                  obtain ⟨fg, hfg, hfgp⟩ := hc1 q pq g hq hg
                  have hga : g ≠ a := by
                    intro hx
                    subst hx
                    rw [hfa] at hfg
                    cases hfg
                    rw [hfap] at hfgp
                    cases hfgp
                    exact hqp1 rfl
                  have hgb : g ≠ b := by
                    intro hx
                    subst hx
                    rw [hfb] at hfg
                    cases hfg
                    rw [hfbp] at hfgp
                    cases hfgp
                    exact hqp2 rfl
                  exact ⟨fg, by rw [upd_ne hgb, upd_ne hga]; exact hfg, hfgp⟩
            · intro g f q pq hg hq hpq
              dsimp only at hg hpq ⊢
              by_cases hgb : g = b
              · subst hgb
                rw [upd_same] at hg
                cases hg
                rw [hfap] at hq
                cases hq
                rw [upd_ne (Ne.symm hp1p2), upd_same] at hpq
                cases hpq
                dsimp only
                rw [hps, setPointerPayload_pointer]
              · rw [upd_ne hgb] at hg
                by_cases hga : g = a
                · subst hga
                  rw [upd_same] at hg
                  cases hg
                  rw [hfbp] at hq
                  cases hq
                  rw [upd_same] at hpq
                  cases hpq
                  dsimp only
                  rw [hps', setPointerPayload_pointer]
                · rw [upd_ne hga] at hg
                  by_cases hqp2 : q = p2
                  · subst hqp2
                    have hx := hc2 g f q pp2 hg hq hp2
                    rw [hps'] at hx
                    cases hx
                    exact absurd rfl hgb
                  · rw [upd_ne hqp2] at hpq
                    by_cases hqp1 : q = p1
                    · subst hqp1
                      have hx := hc2 g f q pp1 hg hq hp1
                      rw [hps] at hx
                      cases hx
                      exact absurd rfl hga
                    · rw [upd_ne hqp1] at hpq
                      exact hc2 g f q pq hg hq hpq
  · exact absurd h (by simp)

/-! ## Claim theorems -/

/-- Claim C10: for every future whose broken_promise flag is set, valid()
returns true, yet share() — routed through _check_validity — fails with
broken_promise rather than no_state; no_state is raised only when the future
is invalid and not broken. -/
theorem C10_broken_beats_no_state :
    (∀ f : FutureState V E X, f.brokenPromise = true →
      valid f = true ∧ checkValidity f = .error .broken_promise ∧
      share f = .error .broken_promise) ∧
    (∀ f : FutureState V E X,
      checkValidity f = .error .no_state ↔
        (f.brokenPromise = false ∧ valid f = false)) := by
  constructor
  · intro f hb
    refine ⟨?_, ?_, ?_⟩
    · simp [valid, hb]
    · simp [checkValidity, hb]
    · simp [share, checkValidity, hb, Except.map]
  · intro f
    constructor
    · intro h
      by_cases hb : f.brokenPromise = true
      · simp [checkValidity, hb] at h
      · rw [Bool.not_eq_true] at hb
        refine ⟨hb, ?_⟩
        by_cases hv : valid f = true
        · simp [checkValidity, hb, hv] at h
        · rw [Bool.not_eq_true] at hv
          exact hv
    · rintro ⟨hb, hv⟩
      simp [checkValidity, hb, hv]

/-- Witness for C10 at the concrete broken and default futures. -/
theorem C10_witness :
    (valid fBroken = true ∧ checkValidity fBroken = .error .broken_promise ∧
      share fBroken = .error .broken_promise) ∧
    (checkValidity fDefault = .error .no_state ↔
      (fDefault.brokenPromise = false ∧ valid fDefault = false)) :=
  ⟨C10_broken_beats_no_state.1 fBroken rfl, C10_broken_beats_no_state.2 fDefault⟩

/-- Claim C9: every forwarded operation on the shared-future adapter first
checks that the underlying handle is present; an absent handle is fatal (the
operation aborts rather than reporting an error), while a present handle
forwards the operation; by contrast a directly held default-constructed
(invalid, not broken) future reports the recoverable no_state error, and a
default-constructed adapter does hold a future. -/
theorem C9_shared_absent_aborts :
    (∀ s : SharedFuturePtr V E X, s.future = none →
      sharedCheck s = .aborted ∧ sharedValid s = .aborted ∧
      sharedIsReady s = .aborted ∧ sharedWait s = .aborted ∧
      sharedGet s = .aborted) ∧
    (∀ (s : SharedFuturePtr V E X) (f : FutureState V E X), s.future = some f →
      sharedValid s = .ok (valid f) ∧ sharedIsReady s = .ok (isReadyS f.storage) ∧
      sharedWait s = .ok (waitF f) ∧ sharedGet s = .ok (getF f)) ∧
    checkValidity (⟨.empty, false, none⟩ : FutureState V E X) = .error .no_state ∧
    (sharedDefault : SharedFuturePtr V E X).future =
      some ⟨.empty, false, none⟩ := by
  refine ⟨?_, ?_, ?_, rfl⟩
  · intro s hs
    simp [sharedCheck, sharedValid, sharedIsReady, sharedWait, sharedGet, hs]
  · intro s f hs
    simp [sharedCheck, sharedValid, sharedIsReady, sharedWait, sharedGet, hs]
  · simp [checkValidity, valid, isReadyS]

/-- Witness for C9 at an absent and a present shared handle. -/
theorem C9_witness :
    (sharedCheck sAbsent = .aborted ∧ sharedValid sAbsent = .aborted ∧
      sharedIsReady sAbsent = .aborted ∧ sharedWait sAbsent = .aborted ∧
      sharedGet sAbsent = .aborted) ∧
    (sharedValid sReady = .ok (valid (⟨.value 3, false, none⟩ : FutureState Nat Nat Nat)) ∧
      sharedIsReady sReady = .ok (isReadyS (Storage.value 3 : Storage Nat Nat Nat)) ∧
      sharedWait sReady = .ok (waitF (⟨.value 3, false, none⟩ : FutureState Nat Nat Nat)) ∧
      sharedGet sReady = .ok (getF (⟨.value 3, false, none⟩ : FutureState Nat Nat Nat))) :=
  ⟨C9_shared_absent_aborts.1 sAbsent rfl,
   C9_shared_absent_aborts.2.1 sReady ⟨.value 3, false, none⟩ rfl⟩

/-- Claim C8, the half about code that compiles: the lock_guard's own release
discipline (future.hpp lines 195-218) is exactly-once — unlock() clears both
records; with the records cleared, a further unlock (the destructor running
after an explicit unlock(), as in get_future lines 365-370) touches no lock at
all; and a full construct-then-release round trip on the linked pair frees
both locks with no unlock of an already-free spinlock (badUnlocks unchanged).
The wait() spin loop the claim scopes to is ill-formed (const this at lines
703/710, deleted copy assignment at line 710) and has no behavior to model. -/
theorem C8_lock_guard_unlock_once :
    (∀ (ls : LockPairState) (g : GuardRec),
      (guardUnlock ls g).2 = { recP := false, recF := false }) ∧
    (∀ ls : LockPairState,
      guardUnlock ls { recP := false, recF := false } =
        (ls, { recP := false, recF := false })) ∧
    (∀ ls : LockPairState,
      guardUnlock (guardCtorLinked ls).1 (guardCtorLinked ls).2 =
        ({ ls with fLock := false, pLock := false },
         { recP := false, recF := false })) := by
  refine ⟨?_, ?_, ?_⟩
  · intro ls g
    simp [guardUnlock]
  · intro ls
    simp [guardUnlock]
  · intro ls
    simp [guardUnlock, guardCtorLinked, lpUnlockP, lpUnlockF]

/-- Claim C3: destroying a non-detached promise that is linked to a
not-yet-ready future marks the future broken_promise, clears its back-pointer
and removes the promise; a subsequent wait() or get() on that future fails
with broken_promise. -/
theorem C3_broken_promise (w : World V E X) (pid fid : Nat)
    (p : PromiseState V E X) (f : FutureState V E X)
    (hp : w.promises pid = some p) (hd : p.detached = false)
    (hst : p.storage = .pointer fid) (hf : w.futures fid = some f)
    (hnr : isReadyS f.storage = false) :
    promiseDtor w pid =
      some ⟨upd w.promises pid none,
        upd w.futures fid (some ⟨f.storage, true, none⟩)⟩ ∧
    waitF (⟨f.storage, true, none⟩ : FutureState V E X) = .errored .broken_promise ∧
    getF (⟨f.storage, true, none⟩ : FutureState V E X) = .errored .broken_promise := by
  refine ⟨?_, ?_, ?_⟩
  · simp [promiseDtor, hp, hd, hst, hf, hnr]
  · simp [waitF, checkValidity, hnr]
  · simp [getF, waitF, checkValidity, hnr]

/-- Witness for C3: destroying the linked promise of the concrete world wL. -/
theorem C3_witness :
    (promiseDtor wL 0 =
      some ⟨upd wL.promises 0 none,
        upd wL.futures 0 (some ⟨.empty, true, none⟩)⟩ ∧
    waitF (⟨.empty, true, none⟩ : FutureState Nat Nat Nat) = .errored .broken_promise ∧
    getF (⟨.empty, true, none⟩ : FutureState Nat Nat Nat) = .errored .broken_promise) :=
  C3_broken_promise wL 0 0 ⟨.pointer 0, false⟩ ⟨.empty, false, some 0⟩ rfl rfl rfl rfl rfl

/-- Claim C4: set_value(v) before get_future() buffers v in the promise's
slot; the subsequent get_future() yields an immediately ready future holding
v, whose wait() returns at once and whose get() returns v, while the promise
is left detached with no back-pointer installed. -/
theorem C4_preset_value (w : World V E X) (pid fid : Nat)
    (p : PromiseState V E X) (v : V)
    (hp : w.promises pid = some p) (hst : p.storage = .empty)
    (hd : p.detached = false) :
    set_value w pid v =
      some (.ok ⟨upd w.promises pid (some ⟨.value v, false⟩), w.futures⟩) ∧
    getFuture ⟨upd w.promises pid (some ⟨.value v, false⟩), w.futures⟩ pid fid =
      some (.ok ⟨upd (upd w.promises pid (some ⟨.value v, false⟩)) pid
          (some ⟨.empty, true⟩),
        upd w.futures fid (some ⟨.value v, false, none⟩)⟩) ∧
    isReadyS (Storage.value v : Storage V E X) = true ∧
    waitF (⟨.value v, false, none⟩ : FutureState V E X) = .ready ∧
    getF (⟨.value v, false, none⟩ : FutureState V E X) = .value v := by
  refine ⟨?_, ?_, rfl, ?_, ?_⟩
  · simp [set_value, setOutcome, hp, hd, hst, isReadyS, Outcome.toStorage]
  · simp [getFuture, upd_same, futureLinked, isReadyS]
  · simp [waitF, isReadyS]
  · simp [getF, waitF, isReadyS]

/-- Witness for C4 at the concrete world wP with v = 7 (wB is exactly the
buffered world). -/
theorem C4_witness :
    set_value wP 0 7 =
      some (.ok ⟨upd wP.promises 0 (some ⟨.value 7, false⟩), wP.futures⟩) ∧
    getFuture ⟨upd wP.promises 0 (some ⟨.value 7, false⟩), wP.futures⟩ 0 0 =
      some (.ok ⟨upd (upd wP.promises 0 (some ⟨.value 7, false⟩)) 0
          (some ⟨.empty, true⟩),
        upd wP.futures 0 (some ⟨.value 7, false, none⟩)⟩) ∧
    isReadyS (Storage.value 7 : Storage Nat Nat Nat) = true ∧
    waitF (⟨.value 7, false, none⟩ : FutureState Nat Nat Nat) = .ready ∧
    getF (⟨.value 7, false, none⟩ : FutureState Nat Nat Nat) = .value 7 :=
  C4_preset_value wP 0 0 ⟨.empty, false⟩ 7 rfl rfl rfl

/-- Claim C1 counterexample: on a promise whose outcome was already set
(value 7 buffered, not detached, no future linked), get_future() succeeds —
but the returned future is not linked to the promise: its back-pointer is
none and the promise detaches, refuting "otherwise returns a newly linked
future". -/
theorem C1_counterexample :
    (okWorld (getFuture wB 0 0)).map
      (fun w => ((w.futures 0).map FutureState.promise,
        (w.promises 0).map PromiseState.detached)) =
      some (some none, some true) := by
  decide

/-- Claim C1 (amended): get_future fails with future_already_retrieved exactly
when a future is already linked or the promise is detached — in particular a
second get_future after a successful one fails so.  Otherwise it returns a new
future: linked to the promise when the slot was empty, and otherwise (outcome
already buffered) carrying the outcome, unlinked, with the promise detached. -/
theorem C1_get_future (w w2 : World V E X) (pid fid fid2 : Nat)
    (p : PromiseState V E X) :
    (getFuture w pid fid = some (.ok w2) →
      getFuture w2 pid fid2 = some (.error .future_already_retrieved)) ∧
    (w.promises pid = some p →
      (getFuture w pid fid = some (.error .future_already_retrieved) ↔
        futureLinked p.storage = true ∨ p.detached = true)) ∧
    (w.promises pid = some p → p.storage = .empty → p.detached = false →
      getFuture w pid fid =
        some (.ok ⟨upd w.promises pid (some ⟨.pointer fid, false⟩),
          upd w.futures fid (some ⟨.empty, false, some pid⟩)⟩)) ∧
    (w.promises pid = some p → futureLinked p.storage = false →
      isReadyS p.storage = true → p.detached = false →
      getFuture w pid fid =
        some (.ok ⟨upd w.promises pid (some ⟨.empty, true⟩),
          upd w.futures fid (some ⟨p.storage, false, none⟩)⟩)) := by
  refine ⟨?_, ?_, ?_, ?_⟩
  · intro h
    unfold getFuture at h
    split at h
    · exact absurd h (by simp)
    next p0 hp0 =>
      split at h
      · simp at h
      next hnl =>
        split at h
        · simp at h
        split at h <;>
          simp only [Option.some.injEq, Except.ok.injEq] at h <;> subst h
        · simp [getFuture, upd_same]
        · simp [getFuture, upd_same, futureLinked]
  · intro hp
    constructor
    · intro h
      by_cases hl : futureLinked p.storage = true
      · exact .inl hl
      · right
        rw [Bool.not_eq_true] at hl
        by_contra hd
        rw [Bool.not_eq_true] at hd
        cases hr : isReadyS p.storage <;>
          simp [getFuture, hp, hl, hd, hr] at h
    · intro hor
      rcases hor with hl | hd
      · simp [getFuture, hp, hl]
      · cases hl : futureLinked p.storage <;> simp [getFuture, hp, hl, hd]
  · intro hp hst hd
    simp [getFuture, hp, hst, hd, futureLinked, isReadyS]
  · intro hp hl hr hd
    simp [getFuture, hp, hl, hr, hd]

/-- Witness for C1 at concrete worlds: second call on wL fails; failure iff
characterization at the linked world; success shapes at wP (empty slot) and
wB (buffered value 7). -/
theorem C1_witness :
    getFuture wL 0 1 = some (.error .future_already_retrieved) ∧
    getFuture wL 0 3 = some (.error .future_already_retrieved) ∧
    getFuture wP 0 0 =
      some (.ok ⟨upd wP.promises 0 (some ⟨.pointer 0, false⟩),
        upd wP.futures 0 (some ⟨.empty, false, some 0⟩)⟩) ∧
    getFuture wB 0 0 =
      some (.ok ⟨upd wB.promises 0 (some ⟨.empty, true⟩),
        upd wB.futures 0 (some ⟨.value 7, false, none⟩)⟩) :=
  ⟨(C1_get_future wP wL 0 0 1 ⟨.empty, false⟩).1 rfl,
   ((C1_get_future wL wL 0 3 0 ⟨.pointer 0, false⟩).2.1 rfl).mpr (Or.inl rfl),
   (C1_get_future wP wP 0 0 0 ⟨.empty, false⟩).2.2.1 rfl rfl rfl,
   (C1_get_future wB wB 0 0 0 ⟨.value 7, false⟩).2.2.2 rfl rfl rfl rfl⟩

/-- Claim C2: the outcome setters are single-assignment — a second setter call
(any kinds, either order, with or without a linked future) fails with
already_set; the first successful call with a linked future writes the outcome
into the future's slot, clears the back-pointer on both sides, clears the
promise's slot and marks the promise detached; without a linked future it
buffers the outcome in the promise's own slot. -/
theorem C2_set_single_assignment (w w2 : World V E X) (pid fid : Nat)
    (p : PromiseState V E X) (f : FutureState V E X) (o o2 : Outcome V E X) :
    (setOutcome w pid o = some (.ok w2) →
      setOutcome w2 pid o2 = some (.error .already_set)) ∧
    (w.promises pid = some p → p.detached = false → p.storage = .pointer fid →
      w.futures fid = some f → f.storage = .empty →
      setOutcome w pid o =
        some (.ok ⟨upd w.promises pid (some ⟨.empty, true⟩),
          upd w.futures fid (some ⟨o.toStorage, f.brokenPromise, none⟩)⟩)) ∧
    (w.promises pid = some p → p.detached = false → p.storage = .empty →
      setOutcome w pid o =
        some (.ok ⟨upd w.promises pid (some ⟨o.toStorage, false⟩),
          w.futures⟩)) := by
  refine ⟨?_, ?_, ?_⟩
  · intro h
    unfold setOutcome at h
    split at h
    · exact absurd h (by simp)
    next p0 hp0 =>
      split at h
      · simp at h
      next hnd =>
        split at h
        next fid0 hst0 =>
          split at h
          · exact absurd h (by simp)
          next f0 hf0 =>
            split at h
            · simp at h
            next hnr0 =>
              simp only [Option.some.injEq, Except.ok.injEq] at h
              subst h
              simp [setOutcome, upd_same]
        next st0 hnp0 =>
          split at h
          · simp at h
          next hnr0 =>
            simp only [Option.some.injEq, Except.ok.injEq] at h
            subst h
            cases o <;> simp [setOutcome, upd_same, isReadyS, Outcome.toStorage]
  · intro hp hd hst hf hfe
    simp [setOutcome, hp, hd, hst, hf, hfe, isReadyS]
  · intro hp hd hst
    simp [setOutcome, hp, hd, hst, isReadyS]

/-- Witness for C2 at concrete worlds: buffering on wP then a failing second
set; delivery through the linked pair wL then a failing second set. -/
theorem C2_witness :
    setOutcome wB 0 (.error 1) = some (.error .already_set) ∧
    setOutcome wL 0 (.value 9) =
      some (.ok ⟨upd wL.promises 0 (some ⟨.empty, true⟩),
        upd wL.futures 0 (some ⟨.value 9, false, none⟩)⟩) ∧
    setOutcome wLSet 0 (.exception 2) = some (.error .already_set) ∧
    setOutcome wP 0 (.value 7) =
      some (.ok ⟨upd wP.promises 0 (some ⟨.value 7, false⟩), wP.futures⟩) :=
  ⟨(C2_set_single_assignment wP wB 0 0 ⟨.empty, false⟩ fDefault
      (.value 7) (.error 1)).1 rfl,
   (C2_set_single_assignment wL wL 0 0 ⟨.pointer 0, false⟩ ⟨.empty, false, some 0⟩
      (.value 9) (.value 9)).2.1 rfl rfl rfl rfl rfl,
   (C2_set_single_assignment wL wLSet 0 0 ⟨.pointer 0, false⟩ ⟨.empty, false, some 0⟩
      (.value 9) (.exception 2)).1 rfl,
   (C2_set_single_assignment wP wP 0 0 ⟨.empty, false⟩ fDefault
      (.value 7) (.value 7)).2.2 rfl rfl rfl⟩

/-- Claim C6 (code-bug evidence): along the public-API trace swapTrace
(promise 0 delivers 42 and detaches; promise 1 is linked to future 11; then
promise 0 swaps with promise 1), the detached flags are not exchanged —
promise 0 keeps detached = true while receiving promise 1's linked slot, and
promise 1 keeps detached = false — although the slots were exchanged and
future 11 was repointed at promise 0.  Destroying promise 0 afterwards takes
the detached shortcut, leaving future 11's back-pointer referring to the dead
promise with broken_promise still false. -/
theorem C6_swap_flags_not_exchanged :
    swapTrace.map (fun w =>
      ((w.promises 0).map PromiseState.detached,
       (w.promises 1).map PromiseState.detached,
       (w.promises 0).map PromiseState.storage,
       (w.futures 11).map FutureState.promise)) =
      some (some true, some false, some (.pointer 11), some (some 0)) ∧
    swapTraceD.map (fun w =>
      ((w.promises 0).isSome,
       (w.futures 11).map FutureState.promise,
       (w.futures 11).map FutureState.brokenPromise)) =
      some (false, some (some 0), some false) :=
  ⟨rfl, rfl⟩

/-- Claim C6 (amended): promise swap exchanges the outcome slots and repoints
each linked future's back-pointer to its new owning promise, but the detached
flags are not exchanged — each promise keeps its own flag. -/
theorem C6_swap_keeps_flags (w : World V E X) (a b f2 : Nat)
    (pa pb : PromiseState V E X) (ff2 : FutureState V E X)
    (hpa : w.promises a = some pa) (hpb : w.promises b = some pb)
    (hnl : futureLinked pa.storage = false) (hst2 : pb.storage = .pointer f2)
    (hff2 : w.futures f2 = some ff2) :
    promiseSwap w a b =
      some ⟨upd (upd w.promises a (some ⟨pb.storage, pa.detached⟩)) b
          (some ⟨pa.storage, pb.detached⟩),
        upd w.futures f2 (some ⟨ff2.storage, ff2.brokenPromise, some a⟩)⟩ := by
  have hro : repointOwner w.futures pa.storage b = some w.futures := by
    cases hstc : pa.storage with
    | empty => simp [repointOwner]
    | value v => simp [repointOwner]
    | error e => simp [repointOwner]
    | exception x => simp [repointOwner]
    | pointer g =>
      rw [hstc] at hnl
      simp [futureLinked] at hnl
  have hro2 : repointOwner w.futures pb.storage a =
      some (upd w.futures f2 (some ⟨ff2.storage, ff2.brokenPromise, some a⟩)) := by
    simp [repointOwner, hst2, hff2]
  simp [promiseSwap, hpa, hpb, hro, hro2]

/-- Witness for C6 (amended) along the swap step of the concrete trace: the
detached promise 0 swaps with the linked promise 1 and both keep their own
detached flags. -/
theorem C6_witness :
    promiseSwap ⟨upd (upd wTwo.promises 0 (some ⟨.empty, true⟩)) 1
        (some ⟨.pointer 11, false⟩),
      upd (upd wTwo.futures 10 (some ⟨.value 42, false, none⟩)) 11
        (some ⟨.empty, false, some 1⟩)⟩ 0 1 =
      some ⟨upd (upd (upd (upd wTwo.promises 0 (some ⟨.empty, true⟩)) 1
            (some ⟨.pointer 11, false⟩)) 0 (some ⟨.pointer 11, true⟩)) 1
          (some ⟨.empty, false⟩),
        upd (upd (upd wTwo.futures 10 (some ⟨.value 42, false, none⟩)) 11
            (some ⟨.empty, false, some 1⟩)) 11 (some ⟨.empty, false, some 0⟩)⟩ :=
  C6_swap_keeps_flags _ 0 1 11 ⟨.empty, true⟩ ⟨.pointer 11, false⟩
    ⟨.empty, false, some 1⟩ rfl rfl rfl rfl rfl

/-- Claim C7 counterexample: moving a linked, non-detached promise leaves the
moved-from promise's detached flag false (not set), and the moved-from promise
can even hand out a fresh future afterwards. -/
theorem C7_counterexample :
    (promiseMove wL 0 1).map (fun w =>
      ((w.promises 0).map PromiseState.detached,
       (w.promises 1).map PromiseState.detached,
       (w.futures 0).map FutureState.promise)) =
      some (some false, some false, some (some 1)) ∧
    ((promiseMove wL 0 1).bind (fun w => okWorld (getFuture w 0 2))).isSome = true := by
  decide

/-- Claim C7 (amended): after a move, the destination receives the source's
slot and detached flag, and a linked future is repointed to the destination;
the moved-from promise's slot is emptied but its detached flag is left
unchanged, so a previously non-detached moved-from promise may again hand out
a future or buffer a value. -/
theorem C7_move_flag_unchanged (w : World V E X) (src dst fid : Nat)
    (p : PromiseState V E X) (f : FutureState V E X) :
    (src ≠ dst → w.promises src = some p → futureLinked p.storage = false →
      promiseMove w src dst =
        some ⟨upd (upd w.promises src (some ⟨.empty, p.detached⟩)) dst
          (some ⟨p.storage, p.detached⟩), w.futures⟩) ∧
    (src ≠ dst → w.promises src = some p → p.storage = .pointer fid →
      w.futures fid = some f →
      promiseMove w src dst =
        some ⟨upd (upd w.promises src (some ⟨.empty, p.detached⟩)) dst
            (some ⟨.pointer fid, p.detached⟩),
          upd w.futures fid (some ⟨f.storage, f.brokenPromise, some dst⟩)⟩) := by
  constructor
  · intro hsd hp hnl
    cases hstc : p.storage with
    | empty => simp [promiseMove, hp, hstc]
    | value v => simp [promiseMove, hp, hstc]
    | error e => simp [promiseMove, hp, hstc]
    | exception x => simp [promiseMove, hp, hstc]
    | pointer g =>
      rw [hstc] at hnl
      simp [futureLinked] at hnl
  · intro hsd hp hst hf
    simp [promiseMove, hp, hst, hf]

/-- Witness for C7 (amended): moving the linked promise of wL to id 1. -/
theorem C7_witness :
    promiseMove wL 0 1 =
      some ⟨upd (upd wL.promises 0 (some ⟨.empty, false⟩)) 1
          (some ⟨.pointer 0, false⟩),
        upd wL.futures 0 (some ⟨.empty, false, some 1⟩)⟩ :=
  (C7_move_flag_unchanged wL 0 1 0 ⟨.pointer 0, false⟩ ⟨.empty, false, some 0⟩).2
    (by decide) rfl rfl rfl

/-- The world wP (one fresh promise, no futures) is consistent. -/
theorem consistent_wP : Consistent wP := by
  constructor
  · intro pid p fid hp hst
    by_cases h0 : pid = 0
    · subst h0
      have hx : wP.promises 0 = some ⟨.empty, false⟩ := rfl
      rw [hx] at hp
      cases hp
      cases hst
    · have hx : wP.promises pid = none := by
        simp [wP, upd, h0, emptyPs]
      rw [hx] at hp
      cases hp
  · intro fid f pid p hf hfp hpq
    have hx : wP.futures fid = none := rfl
    rw [hx] at hf
    cases hf

/-- Claim C5: every operation preserves mutual back-pointer consistency in
the spec's sense ("whenever both exist"); in particular moving a linked
promise repoints the future's back-pointer to the destination — so a later
setter through the destination reaches the same future — and swapping two
linked futures repoints each linked promise at the future that now holds its
link. -/
theorem C5_link_consistency (w wnext : World V E X) (src dst a b fid p1 p2 : Nat)
    (p pp1 pp2 : PromiseState V E X) (f fa fb : FutureState V E X)
    (o : Outcome V E X) :
    (Consistent w → Step w wnext → Consistent wnext) ∧
    (w.promises src = some p → p.storage = .pointer fid → w.futures fid = some f →
      promiseMove w src dst =
        some ⟨upd (upd w.promises src (some ⟨.empty, p.detached⟩)) dst
            (some ⟨.pointer fid, p.detached⟩),
          upd w.futures fid (some ⟨f.storage, f.brokenPromise, some dst⟩)⟩ ∧
      (p.detached = false → f.storage = .empty →
        setOutcome ⟨upd (upd w.promises src (some ⟨.empty, p.detached⟩)) dst
            (some ⟨.pointer fid, p.detached⟩),
          upd w.futures fid (some ⟨f.storage, f.brokenPromise, some dst⟩)⟩ dst o =
          some (.ok ⟨upd (upd (upd w.promises src (some ⟨.empty, p.detached⟩)) dst
              (some ⟨.pointer fid, p.detached⟩)) dst (some ⟨.empty, true⟩),
            upd (upd w.futures fid (some ⟨f.storage, f.brokenPromise, some dst⟩)) fid
              (some ⟨o.toStorage, f.brokenPromise, none⟩)⟩))) ∧
    (a ≠ b → w.futures a = some fa → w.futures b = some fb →
      fa.promise = some p1 → fb.promise = some p2 →
      w.promises p1 = some pp1 → w.promises p2 = some pp2 →
      pp1.storage = .pointer a → pp2.storage = .pointer b →
      futureSwap w a b =
        some ⟨upd (upd w.promises p1 (some ⟨.pointer b, pp1.detached⟩)) p2
            (some ⟨.pointer a, pp2.detached⟩),
          upd (upd w.futures a (some fb)) b (some fa)⟩) := by
  refine ⟨?_, ?_, ?_⟩
  · intro hc hstep
    cases hstep with
    | stepGetFuture pid1 fid1 w1 w2 hfr hok => exact consistent_getFuture hfr hok hc
    | stepSetOutcome pid1 o1 w1 w2 hok => exact consistent_setOutcome hok hc
    | stepPromiseDtor pid1 w1 w2 hok => exact consistent_promiseDtor hok hc
    | stepPromiseMove src1 dst1 w1 w2 hfr hrefs hok =>
      exact consistent_promiseMove hfr hrefs hok hc
    | stepPromiseSwap a1 b1 w1 w2 hab1 hok => exact consistent_promiseSwap hab1 hok hc
    | stepFutureDtor fid1 w1 w2 hok => exact consistent_futureDtor hok hc
    | stepFutureMove src1 dst1 w1 w2 hfr hok => exact consistent_futureMove hfr hok hc
    | stepFutureSwap a1 b1 w1 w2 hab1 hok => exact consistent_futureSwap hab1 hok hc
  · intro hp hst hf
    constructor
    · simp [promiseMove, hp, hst, hf]
    · intro hd hfe
      simp [setOutcome, upd_same, hd, hfe, isReadyS]
  · intro hab hfa hfb hfap hfbp hp1 hp2 hs1 hs2
    have hp12 : p1 ≠ p2 := by
      intro hx
      subst hx
      rw [hp1] at hp2
      cases hp2
      rw [hs1] at hs2
      cases hs2
      exact hab rfl
    have hr1 : repointPayload w.promises fa.promise b =
        some (upd w.promises p1 (some ⟨.pointer b, pp1.detached⟩)) := by
      simp [repointPayload, hfap, hp1, hs1, setPointerPayload]
    have hr2 : repointPayload (upd w.promises p1 (some ⟨.pointer b, pp1.detached⟩))
        fb.promise a =
        some (upd (upd w.promises p1 (some ⟨.pointer b, pp1.detached⟩)) p2
          (some ⟨.pointer a, pp2.detached⟩)) := by
      simp [repointPayload, hfbp, upd_ne (Ne.symm hp12), hp2, hs2, setPointerPayload]
    simp [futureSwap, hfa, hfb, hr1, hr2]

/-- Witness for C5 at concrete worlds: preservation across the get_future
step wP → wL; the move of the linked promise of wL to id 1 followed by
set_value through the destination reaching future 0; and the swap of the two
linked futures of wSwap2. -/
theorem C5_witness :
    Consistent wL ∧
    (promiseMove wL 0 1 =
      some ⟨upd (upd wL.promises 0 (some ⟨.empty, false⟩)) 1
          (some ⟨.pointer 0, false⟩),
        upd wL.futures 0 (some ⟨.empty, false, some 1⟩)⟩) ∧
    (setOutcome ⟨upd (upd wL.promises 0 (some ⟨.empty, false⟩)) 1
        (some ⟨.pointer 0, false⟩),
      upd wL.futures 0 (some ⟨.empty, false, some 1⟩)⟩ 1 (.value 4) =
      some (.ok ⟨upd (upd (upd wL.promises 0 (some ⟨.empty, false⟩)) 1
          (some ⟨.pointer 0, false⟩)) 1 (some ⟨.empty, true⟩),
        upd (upd wL.futures 0 (some ⟨.empty, false, some 1⟩)) 0
          (some ⟨.value 4, false, none⟩)⟩)) ∧
    futureSwap wSwap2 10 11 =
      some ⟨upd (upd wSwap2.promises 0 (some ⟨.pointer 11, false⟩)) 1
          (some ⟨.pointer 10, false⟩),
        upd (upd wSwap2.futures 10 (some ⟨.empty, false, some 1⟩)) 11
          (some ⟨.empty, false, some 0⟩)⟩ :=
  ⟨(C5_link_consistency wP wL 0 0 0 0 0 0 0 ⟨.empty, false⟩ ⟨.empty, false⟩
      ⟨.empty, false⟩ fDefault fDefault fDefault (.value 0)).1 consistent_wP
      (Step.stepGetFuture 0 0 wP wL rfl rfl),
   ((C5_link_consistency wL wL 0 1 0 0 0 0 0 ⟨.pointer 0, false⟩ ⟨.empty, false⟩
      ⟨.empty, false⟩ ⟨.empty, false, some 0⟩ fDefault fDefault (.value 4)).2.1
      rfl rfl rfl).1,
   ((C5_link_consistency wL wL 0 1 0 0 0 0 0 ⟨.pointer 0, false⟩ ⟨.empty, false⟩
      ⟨.empty, false⟩ ⟨.empty, false, some 0⟩ fDefault fDefault (.value 4)).2.1
      rfl rfl rfl).2 rfl rfl,
   (C5_link_consistency wSwap2 wSwap2 0 0 10 11 0 0 1 ⟨.empty, false⟩
      ⟨.pointer 10, false⟩ ⟨.pointer 11, false⟩ fDefault ⟨.empty, false, some 0⟩
      ⟨.empty, false, some 1⟩ (.value 0)).2.2 (by decide) rfl rfl rfl rfl rfl rfl
      rfl rfl⟩

end LWFut
